import Mathlib

/-!
Verification of the `@ldesign/websocket` client runtime.

This file gives a shallow embedding, in Lean 4, of the parts of the source
that the specification's claims talk about:

* the connection state machine (`ConnectionManager.setState`, the adapter
  `close` handler, `WebSocketClient.connect` / `destroy` / `send`);
* the reconnect manager (`ReconnectManager.getNextDelay` / `reconnect`);
* the priority message queue (`MessageQueue.sortByPriority`, `dequeue`,
  `removeLowPriorityOldest`, `enqueue`);
* the event emitter (`EventEmitter.on` / `once` / `emit` / `listenerCount`);
* the message deduplicator (`MessageDeduplicator.isDuplicate`,
  `markProcessed`, the periodic `cleanup`).

Timestamps are natural numbers, payloads and handler identities are
abstracted to `Nat` (JavaScript compares handler functions by reference),
and JavaScript numbers used in delay arithmetic are modelled as rationals.
`Array.prototype.sort` with a consistent comparator is required by the
JS specification to be stable; the unique stable sorted permutation is
computed here by `List.insertionSort` with the comparator's preorder.
-/

namespace WS

/-! ### Connection state machine (`connection-manager.ts`) -/

/-- The `ConnectionState` union type of the source. -/
inductive ConnState where
  | disconnected
  | connecting
  | connected
  | disconnecting
  | reconnecting
deriving DecidableEq, Repr

/-- The payload of a `state-change` event: `{ oldState, newState, timestamp }`. -/
structure StateChangeEvent where
  oldState : ConnState
  newState : ConnState
  timestamp : Nat
deriving DecidableEq, Repr

/-- `ConnectionManager.setState`: a no-op when the state is unchanged,
otherwise it updates the state and emits exactly one `state-change` event. -/
def setState (s : ConnState) (ns : ConnState) (now : Nat) :
    ConnState × List StateChangeEvent :=
  if s = ns then (s, [])
  else (ns, [⟨s, ns, now⟩])

/-- `ConnectionManager.isConnected`. -/
def isConnected (s : ConnState) : Bool := s = ConnState.connected

/-- `ConnectionManager.isConnecting`: true in state `connecting` and also in
state `reconnecting`. -/
def isConnecting (s : ConnState) : Bool :=
  s = ConnState.connecting || s = ConnState.reconnecting

/-- Result of the adapter `close` handler: final state, the `state-change`
events emitted (in order), and whether the `close` event was emitted. -/
structure CloseOutcome where
  finalState : ConnState
  stateChanges : List StateChangeEvent
  closeEmitted : Bool
deriving DecidableEq, Repr

/-- The adapter `close` listener in `WebSocketClient.setupAdapterListeners`:
stop the heartbeat, remember whether the client was connected, set the state
to `disconnected`, emit `close`, and when the close was unclean, the client
was connected and reconnect is enabled, run `handleReconnect`, whose first
action is `setState('reconnecting')`. -/
def closeHandler (s : ConnState) (wasClean : Bool) (reconnectEnabled : Bool)
    (now : Nat) : CloseOutcome :=
  let wasConnected := isConnected s
  let step1 := setState s ConnState.disconnected now
  if wasConnected && !wasClean && reconnectEnabled then
    let step2 := setState step1.1 ConnState.reconnecting now
    ⟨step2.1, step1.2 ++ step2.2, true⟩
  else
    ⟨step1.1, step1.2, true⟩

/-! ### Client facade (`websocket-client.ts`) -/

/-- Errors thrown by the facade.  The source's `websocket-client.ts` throws
plain `Error` objects (modelled by `generic`); the `StateError` class defined
in `errors.ts` (modelled by `stateErr`) is never constructed by the facade. -/
inductive WSError where
  | generic (msg : String)
  | stateErr (msg : String)
deriving DecidableEq, Repr

/-- Whether an error is an instance of the `StateError` class. -/
def WSError.isState : WSError → Bool
  | .generic _ => false
  | .stateErr _ => true

/-- The observable fields of a `WebSocketClient` instance that the claims
need: the destroyed flag, the connection state, the queue configuration and
contents, the reconnect/heartbeat configuration, and whether the heartbeat
and reconnect timers are armed. -/
structure Client where
  destroyed : Bool
  connState : ConnState
  queueEnabled : Bool
  queue : List Nat
  reconnectEnabled : Bool
  heartbeatEnabled : Bool
  heartbeatTimerArmed : Bool
  reconnectTimerArmed : Bool
deriving DecidableEq, Repr

/-- Outcome of one `WebSocketClient.connect()` invocation. -/
structure ConnectOutcome where
  client : Client
  adapterConnectCalled : Bool
  stateChanges : List StateChangeEvent
  result : Option WSError
deriving DecidableEq, Repr

/-- `WebSocketClient.connect`, one invocation deep.  The outcome of the
adapter's `connect()` call is the parameter `adapterOk`.  On failure with
reconnect enabled the source awaits `handleReconnect()`; here only its first
synchronous step (`setState('reconnecting')` and arming the reconnect timer)
is recorded, the retry itself being modelled by `handleReconnectRetry`.
On success the queue is flushed (modelled with every send succeeding). -/
def connectModel (c : Client) (adapterOk : Bool) (now : Nat) : ConnectOutcome :=
  if c.destroyed then
    ⟨c, false, [], some (.generic "client destroyed, cannot connect")⟩
  else if isConnected c.connState || isConnecting c.connState then
    ⟨c, false, [], none⟩
  else
    let step1 := setState c.connState ConnState.connecting now
    if adapterOk then
      let step2 := setState step1.1 ConnState.connected now
      ⟨{ c with connState := step2.1,
                heartbeatTimerArmed := c.heartbeatEnabled,
                queue := if c.queueEnabled then [] else c.queue },
        true, step1.2 ++ step2.2, none⟩
    else
      let step2 := setState step1.1 ConnState.disconnected now
      if c.reconnectEnabled then
        let step3 := setState step2.1 ConnState.reconnecting now
        ⟨{ c with connState := step3.1, reconnectTimerArmed := true },
          true, step1.2 ++ step2.2 ++ step3.2, none⟩
      else
        ⟨{ c with connState := step2.1 }, true, step1.2 ++ step2.2,
          some (.generic "connect failed")⟩

/-- The retry performed by `WebSocketClient.handleReconnect`: the state is
first set to `reconnecting`, and after the backoff delay the reconnect
manager invokes `() => this.connect()` as its `connectFn`. -/
def handleReconnectRetry (c : Client) (adapterOk : Bool) (now : Nat) :
    ConnectOutcome :=
  let step1 := setState c.connState ConnState.reconnecting now
  connectModel { c with connState := step1.1 } adapterOk now

/-- `WebSocketClient.disconnect`: a silent no-op after destroy; otherwise it
stops the heartbeat, cancels any pending reconnect timer, closes the adapter
and settles the state at `disconnected`. -/
def disconnectStep (c : Client) : Client :=
  if c.destroyed then c
  else
    { c with heartbeatTimerArmed := false,
             reconnectTimerArmed := false,
             connState := ConnState.disconnected }

/-- `WebSocketClient.destroy`: a no-op on a destroyed client; otherwise it
disconnects, resets the heartbeat and reconnect managers (clearing their
timers), clears the queue and marks the client destroyed. -/
def destroyStep (c : Client) : Client :=
  if c.destroyed then c
  else
    let c1 := disconnectStep c
    { c1 with heartbeatTimerArmed := false,
              reconnectTimerArmed := false,
              queue := [],
              destroyed := true }

/-- `WebSocketClient.send`: throws (a plain `Error`) when destroyed; when not
connected it enqueues if the queue is enabled and throws otherwise; when
connected it sends through the adapter (`adapterSendOk` is that call's
outcome), enqueueing and rethrowing on adapter failure. -/
def sendStep (c : Client) (payload : Nat) (adapterSendOk : Bool) :
    Client × Option WSError :=
  if c.destroyed then
    (c, some (.generic "client destroyed, cannot send"))
  else if !(isConnected c.connState) then
    if c.queueEnabled then ({ c with queue := c.queue ++ [payload] }, none)
    else (c, some (.generic "not connected and message queue disabled"))
  else if adapterSendOk then (c, none)
  else if c.queueEnabled then
    ({ c with queue := c.queue ++ [payload] }, some (.generic "send failed"))
  else (c, some (.generic "send failed"))

/-- `WebSocketClient.sendBinary`: throws (a plain `Error`) when destroyed or
not connected. -/
def sendBinaryStep (c : Client) : Option WSError :=
  if c.destroyed then some (.generic "client destroyed, cannot send binary")
  else if !(isConnected c.connState) then
    some (.generic "not connected, cannot send binary")
  else none

/-- `WebSocketClient.clearQueue`: empties the queue; the source performs no
destroyed-check here and never throws. -/
def clearQueueStep (c : Client) : Client × Option WSError :=
  ({ c with queue := [] }, none)

/-! ### Reconnect manager (`reconnect-manager.ts`) -/

/-- The `Required<ReconnectConfig>` record.  JS numbers are rationals here. -/
structure ReconnectConfig where
  enabled : Bool
  delay : ℚ
  maxDelay : ℚ
  maxAttempts : Nat
  factor : ℚ
  jitter : ℚ

/-- `ReconnectManager.isMaxAttemptsReached`:
`maxAttempts > 0 && attempts >= maxAttempts`. -/
def isMaxAttemptsReached (cfg : ReconnectConfig) (attempts : Nat) : Bool :=
  decide (0 < cfg.maxAttempts) && decide (cfg.maxAttempts ≤ attempts)

/-- `Math.min` on rationals. -/
def qmin (a b : ℚ) : ℚ := if a ≤ b then a else b

/-- `Math.max` on rationals. -/
def qmax (a b : ℚ) : ℚ := if a ≤ b then b else a

/-- `ReconnectManager.getNextDelay` for a given value of the `attempts`
counter; `rand` is the `Math.random()` draw in `[0,1]`:
exponential backoff `delay * factor ^ attempts`, capped at `maxDelay`,
plus additive jitter `(rand - 0.5) * 2 * (cappedDelay * jitter)`,
clamped to be non-negative. -/
def getNextDelay (cfg : ReconnectConfig) (attempts : Nat) (rand : ℚ) : ℚ :=
  let exponentialDelay := cfg.delay * cfg.factor ^ attempts
  let cappedDelay := qmin exponentialDelay cfg.maxDelay
  let jitterRange := cappedDelay * cfg.jitter
  let jitterVal := (rand - 1/2) * 2 * jitterRange
  qmax 0 (cappedDelay + jitterVal)

/-- The callback events observable from `ReconnectManager.reconnect`. -/
inductive REvent where
  | reconnecting (attempt : Nat) (delay : ℚ)
  | reconnected (attempts : Nat)
  | failed (attempts : Nat)
deriving DecidableEq

/-- Whether an `REvent` is the `onFailed` (`reconnect-failed`) callback. -/
def REvent.isFailed : REvent → Bool
  | .failed _ => true
  | _ => false

/-- `ReconnectManager.reconnect`, run against a connect function that fails
`failures` more times and then succeeds.  `attempts` is the current value of
the attempts counter and `rand n` the `Math.random()` draw used for attempt
`n`.  Mirrors the source: return early when disabled; report `onFailed` when
the maximum is already reached; otherwise increment `attempts`, compute the
delay, report `onReconnecting`, then run `connectFn`; on success report
`onReconnected` and reset; on failure recurse unless the maximum has now been
reached, in which case report `onFailed`. -/
def reconnectTrace (cfg : ReconnectConfig) (rand : Nat → ℚ) :
    Nat → Nat → List REvent × Bool
  | failures, attempts =>
    if !cfg.enabled then ([], false)
    else if isMaxAttemptsReached cfg attempts then ([.failed attempts], false)
    else
      let attempts1 := attempts + 1
      let d := getNextDelay cfg attempts1 (rand attempts1)
      match failures with
      | 0 => ([.reconnecting attempts1 d, .reconnected attempts1], true)
      | n + 1 =>
        if !(isMaxAttemptsReached cfg attempts1) then
          let rest := reconnectTrace cfg rand n attempts1
          (.reconnecting attempts1 d :: rest.1, rest.2)
        else
          ([.reconnecting attempts1 d, .failed attempts1], false)

/-- The backoff delays observed between attempts, in order. -/
def observedDelays (evs : List REvent) : List ℚ :=
  evs.filterMap fun e =>
    match e with
    | .reconnecting _ d => some d
    | _ => none

/-- The reconnect configuration of end-to-end scenario 3 of the spec:
`delay 100, maxDelay 1000, factor 2, jitter 0, maxAttempts 5`. -/
def scenarioCfg : ReconnectConfig :=
  ⟨true, 100, 1000, 5, 2, 0⟩

/-- An unbounded-reconnect configuration (`maxAttempts = 0`). -/
def unboundedCfg : ReconnectConfig :=
  ⟨true, 100, 1000, 0, 2, 0⟩

/-- Whether a callback trace contains no `onFailed` report. -/
def noFailedEvent (evs : List REvent) : Bool :=
  evs.all fun e => !e.isFailed

/-- A fixed `Math.random()` stream. -/
def halfRand : Nat → ℚ := fun _ => 1/2

/-! ### Message queue (`message-queue.ts`) -/

/-- The three priority bands. -/
inductive Priority where
  | high
  | normal
  | low
deriving DecidableEq, Repr

/-- The `PRIORITY_WEIGHTS` map: `high 3, normal 2, low 1`. -/
def PRIORITY_WEIGHTS : Priority → Nat
  | .high => 3
  | .normal => 2
  | .low => 1

/-- A `QueueItem` (the claims do not touch `data` or `retries`, so the
payload is left out; `id` is the generated message id, `timestamp` the
`Date.now()` value recorded by `enqueue`). -/
structure QueueItem where
  id : Nat
  priority : Priority
  timestamp : Nat
deriving DecidableEq, Repr

/-- The comparator passed to `this.queue.sort` in
`MessageQueue.sortByPriority`:
`PRIORITY_WEIGHTS[b.priority] - PRIORITY_WEIGHTS[a.priority]` when that
difference is non-zero, else `a.timestamp - b.timestamp`. -/
def queueCmp (a b : QueueItem) : Int :=
  let priorityDiff : Int :=
    (PRIORITY_WEIGHTS b.priority : Int) - (PRIORITY_WEIGHTS a.priority : Int)
  if priorityDiff ≠ 0 then priorityDiff
  else (a.timestamp : Int) - (b.timestamp : Int)

/-- `a` may precede `b` under the comparator: `queueCmp a b ≤ 0`. -/
def queueLE (a b : QueueItem) : Prop := queueCmp a b ≤ 0

instance : DecidableRel queueLE := fun a b =>
  inferInstanceAs (Decidable (queueCmp a b ≤ 0))

/-- `MessageQueue.sortByPriority`: `Array.prototype.sort` with a consistent
comparator is stable (ECMA-262), and the unique stable sorted permutation
for the total preorder `queueLE` is computed by `List.insertionSort`. -/
def sortByPriority (q : List QueueItem) : List QueueItem :=
  q.insertionSort queueLE

/-- `MessageQueue.dequeue`: `ensureSorted` then `shift()`; returns the
removed item (or `none` on an empty queue) and the remaining queue. -/
def dequeue (q : List QueueItem) : Option QueueItem × List QueueItem :=
  match sortByPriority q with
  | [] => (none, [])
  | x :: rest => (some x, rest)

/-- Repeatedly dequeueing (`fuel` bounds the number of steps). -/
def dequeueSeq (fuel : Nat) (q : List QueueItem) : List QueueItem :=
  match fuel with
  | 0 => []
  | n + 1 =>
    match dequeue q with
    | (none, _) => []
    | (some x, rest) => x :: dequeueSeq n rest

/-- `MessageQueue.removeLowPriorityOldest`: `ensureSorted` then `pop()` —
it removes the *last* element of the sorted queue.  Returns the removed
item and the remaining queue. -/
def removeLowPriorityOldest (q : List QueueItem) :
    Option QueueItem × List QueueItem :=
  let s := sortByPriority q
  (s.getLast?, s.dropLast)

/-- `MessageQueue.enqueue` (overflow handling only; size checks on the
payload are not modelled): when the queue already holds `maxSize` items,
`removeLowPriorityOldest` runs first, then the new item is pushed.  Returns
the new queue and the evicted item, if any. -/
def enqueue (maxSize : Nat) (q : List QueueItem) (item : QueueItem) :
    List QueueItem × Option QueueItem :=
  if maxSize ≤ q.length then
    let r := removeLowPriorityOldest q
    (r.2 ++ [item], r.1)
  else (q ++ [item], none)

/-- The items of one priority band, in queue order. -/
def bandFilter (p : Priority) (q : List QueueItem) : List QueueItem :=
  q.filter fun x => decide (x.priority = p)

/-! ### Event emitter, listener bookkeeping (`event-emitter.ts`) -/

/-- A handler's identity (JavaScript compares functions by reference). -/
abbrev Handler := Nat

/-- The emitter's `listeners : Map<string, Set<EventListener>>`, as an
association list in insertion order; each `Set` is a duplicate-free list in
insertion order. -/
abbrev EmitterListeners := List (String × List Handler)

/-- `Set.prototype.add`: appends the handler unless it is already present. -/
def addToSet (h : Handler) (s : List Handler) : List Handler :=
  if h ∈ s then s else s ++ [h]

/-- Whether the listeners map has an entry for the event. -/
def hasEvent (st : EmitterListeners) (e : String) : Bool :=
  st.any fun p => p.1 = e

/-- The handler set registered for an event (empty when absent). -/
def getListeners : EmitterListeners → String → List Handler
  | [], _ => []
  | (k, s) :: rest, e => if k = e then s else getListeners rest e

/-- `EventEmitter.on`: create the event's `Set` if absent, then `add`. -/
def onE (st : EmitterListeners) (e : String) (h : Handler) : EmitterListeners :=
  if hasEvent st e then
    st.map fun p => if p.1 = e then (p.1, addToSet h p.2) else p
  else st ++ [(e, addToSet h [])]

/-- `EventEmitter.listenerCount`: the size of the event's handler set. -/
def listenerCount (st : EmitterListeners) (e : String) : Nat :=
  (getListeners st e).length

/-- How many times one `emit(e, _)` invokes the handler `h`:
`emit` iterates over `Array.from(set)` calling every entry once, so this is
the multiplicity of `h` in the event's handler set. -/
def emitInvocations (st : EmitterListeners) (e : String) (h : Handler) : Nat :=
  (getListeners st e).count h

/-! ### Event emitter, `once` semantics (`event-emitter.ts`) -/

/-- A listener registered for one fixed event: either a user handler `uid`
registered with `on`, or the wrapper that `once` builds around `uid`.  The
wrapper's body is `(data) => { listener(data); this.off(event, onceWrapper) }`
— it invokes the user handler first and removes itself afterwards. -/
inductive RegListener where
  | plain (uid : Nat)
  | onceWrapper (uid : Nat)
deriving DecidableEq, Repr

/-- The state of one event's listener set together with the log of user
handler invocations (`calls` lists the uids invoked so far, in order). -/
structure EmitState where
  listeners : List RegListener
  calls : List Nat
deriving DecidableEq, Repr

/-- Execute one entry of the emit snapshot.  `throws uid k` says whether the
user handler `uid` throws on its `k`-th invocation (0-based).  `emit` wraps
every call in `try/catch`, so a throw is swallowed; but a throw inside the
`once` wrapper happens *before* the `off` call, so the wrapper is then not
removed.  A normal return from the wrapped handler removes the wrapper. -/
def runListener (throws : Nat → Nat → Bool) (st : EmitState)
    (l : RegListener) : EmitState :=
  match l with
  | .plain uid => { st with calls := st.calls ++ [uid] }
  | .onceWrapper uid =>
    let k := st.calls.count uid
    let st1 := { st with calls := st.calls ++ [uid] }
    if throws uid k then st1
    else { st1 with listeners := st1.listeners.filter (· ≠ .onceWrapper uid) }

/-- One `emit`: iterate over a snapshot (`Array.from`) of the current
listener set, so removals during the emission do not disturb it. -/
def emitOnce (throws : Nat → Nat → Bool) (st : EmitState) : EmitState :=
  st.listeners.foldl (runListener throws) st

/-- `n` consecutive emissions of the event. -/
def emitTimes (throws : Nat → Nat → Bool) (st : EmitState) : Nat → EmitState
  | 0 => st
  | n + 1 => emitTimes throws (emitOnce throws st) n

/-- A user handler that throws on every invocation. -/
def alwaysThrows : Nat → Nat → Bool := fun _ _ => true

/-- A user handler that never throws. -/
def neverThrows : Nat → Nat → Bool := fun _ _ => false

/-- The invariant carried across emissions for a non-throwing handler `u`:
`u` was invoked plus is still registered at most once overall, and `u` has
no plain registration. -/
def OnceInv (u : Nat) (st : EmitState) : Prop :=
  st.calls.count u + st.listeners.count (RegListener.onceWrapper u) ≤ 1 ∧
    st.listeners.count (RegListener.plain u) = 0

/-! ### Message deduplicator (`deduplicator.ts`) -/

/-- The `strategy` option: `'id' | 'content' | 'both'`. -/
inductive DedupStrategy where
  | id
  | content
  | both
deriving DecidableEq, Repr

/-- The `Required<DeduplicatorConfig>` fields the claims use (`idField` is
folded into the message model below). -/
structure DedupConfig where
  enabled : Bool
  windowSize : Nat
  maxSize : Nat
  strategy : DedupStrategy
deriving DecidableEq, Repr

/-- An inbound message, as the deduplicator sees it: `idVal` is
`String(obj[idField])` when the message is an object carrying a string or
number in the configured id field (otherwise `none`), and `serialization`
is its `JSON.stringify` rendering, over which the content hash runs. -/
structure Msg where
  idVal : Option String
  serialization : String
deriving DecidableEq, Repr

/-- Reduce an integer to JavaScript's 32-bit signed range, as `hash & hash`
does after each DJB2 step. -/
def toInt32 (n : Int) : Int :=
  let m := n % 4294967296
  if m < 2147483648 then m else m - 4294967296

/-- The DJB2 loop of `hashContent`: `hash = ((hash << 5) + hash) + c` with
`hash` kept as a 32-bit signed integer (`hash << 5` itself operates on the
32-bit value), starting from 5381. -/
def djb2 (s : String) : Int :=
  s.data.foldl (fun hash c => toInt32 (toInt32 (hash * 32) + hash + c.toNat))
    5381

/-- The base-36 digits used by `Number.prototype.toString(36)`. -/
def digit36 (n : Nat) : Char :=
  if n < 10 then Char.ofNat (48 + n) else Char.ofNat (87 + n)

/-- The base-36 digit string of a natural number. -/
def base36Digits (n : Nat) : List Char :=
  if _h : n < 36 then [digit36 n]
  else base36Digits (n / 36) ++ [digit36 (n % 36)]
termination_by n
decreasing_by exact Nat.div_lt_self (by omega) (by omega)

/-- `toString(36)` on an integer: a leading minus sign for negatives. -/
def intToBase36 (i : Int) : String :=
  if i < 0 then "-" ++ String.mk (base36Digits i.natAbs)
  else String.mk (base36Digits i.natAbs)

/-- `MessageDeduplicator.hashContent`: DJB2 over the serialization,
rendered in base 36. -/
def hashContent (m : Msg) : String :=
  intToBase36 (djb2 m.serialization)

/-- `MessageDeduplicator.extractKeys`: an `id:<id>` key under the `id` and
`both` strategies when the message carries an id, and a `hash:<digest>` key
under the `content` and `both` strategies. -/
def extractKeys (cfg : DedupConfig) (m : Msg) : List String :=
  (if cfg.strategy = DedupStrategy.id ∨ cfg.strategy = DedupStrategy.both then
    match m.idVal with
    | some i => ["id:" ++ i]
    | none => []
  else []) ++
  (if cfg.strategy = DedupStrategy.content ∨ cfg.strategy = DedupStrategy.both
  then ["hash:" ++ hashContent m]
  else [])

/-- The `processedMessages` map: key to recorded timestamp, in insertion
order (a JS `Map` preserves insertion order; `set` on an existing key
updates in place). -/
abbrev DedupRecords := List (String × Nat)

/-- Whether the record map has a given key. -/
def recordsHas (recs : DedupRecords) (k : String) : Bool :=
  recs.any fun e => e.1 = k

/-- `Map.prototype.set`: update in place when the key exists, else append. -/
def mapSet (recs : DedupRecords) (k : String) (t : Nat) : DedupRecords :=
  if recordsHas recs k then
    recs.map fun e => if e.1 = k then (k, t) else e
  else recs ++ [(k, t)]

/-- The scan of `MessageDeduplicator.removeOldest`: starting from
`oldestTimestamp = Number.MAX_SAFE_INTEGER` and no key, keep the first entry
with a strictly smaller timestamp than the best so far. -/
def oldestEntry (recs : DedupRecords) : Option String × Nat :=
  recs.foldl
    (fun best e => if e.2 < best.2 then (some e.1, e.2) else best)
    (none, 9007199254740991)

/-- `MessageDeduplicator.removeOldest`: delete the first entry attaining the
minimal timestamp, when one exists. -/
def removeOldest (recs : DedupRecords) : DedupRecords :=
  match (oldestEntry recs).1 with
  | none => recs
  | some k => recs.eraseP fun e => e.1 = k

/-- `MessageDeduplicator.isDuplicate`: false when disabled, else true
exactly when some derived key is already recorded. -/
def isDuplicate (cfg : DedupConfig) (recs : DedupRecords) (m : Msg) : Bool :=
  cfg.enabled && (extractKeys cfg m).any (recordsHas recs)

/-- `MessageDeduplicator.markProcessed`: no-op when disabled; otherwise for
each derived key, evict the oldest record first if the map is at capacity,
then `set` the key with the current timestamp. -/
def markProcessed (cfg : DedupConfig) (recs : DedupRecords) (m : Msg)
    (now : Nat) : DedupRecords :=
  if !cfg.enabled then recs
  else
    (extractKeys cfg m).foldl
      (fun rs k =>
        let rs1 := if cfg.maxSize ≤ rs.length then removeOldest rs else rs
        mapSet rs1 k now)
      recs

/-- `MessageDeduplicator.cleanup`, the body of the periodic sweep that
`startCleanup` schedules every `windowSize / 2` milliseconds: delete every
record with `now - timestamp > windowSize` (truncated `Nat` subtraction
matches the source, where a record from the future is not evicted). -/
def cleanup (recs : DedupRecords) (now : Nat) (windowSize : Nat) :
    DedupRecords :=
  recs.filter fun e => decide (now - e.2 ≤ windowSize)

/-! ### Concrete instances used by witnesses and counterexamples -/

/-- A live client currently in the `reconnecting` state. -/
def reconnectingClient : Client :=
  ⟨false, ConnState.reconnecting, true, [], true, true, false, true⟩

/-- A freshly constructed client (construction opens no socket). -/
def freshClient : Client :=
  ⟨false, ConnState.disconnected, true, [5], true, true, false, false⟩

/-- Two low-priority items: id 1 enqueued at 100, id 2 at 200. -/
def twoLowItems : List QueueItem :=
  [⟨1, Priority.low, 100⟩, ⟨2, Priority.low, 200⟩]

/-- Two high-priority items: id 1 enqueued at 100, id 2 at 200. -/
def twoHighItems : List QueueItem :=
  [⟨1, Priority.high, 100⟩, ⟨2, Priority.high, 200⟩]

/-- A three-item queue: low before two highs, timestamps increasing. -/
def mixedQueue : List QueueItem :=
  [⟨1, Priority.low, 10⟩, ⟨2, Priority.high, 20⟩, ⟨3, Priority.high, 30⟩]

/-- The default deduplicator configuration (strategy `both`). -/
def defaultDedupCfg : DedupConfig := ⟨true, 60000, 10000, DedupStrategy.both⟩

/-- A deduplicator configured with the pure `id` strategy. -/
def idDedupCfg : DedupConfig := ⟨true, 60000, 10000, DedupStrategy.id⟩

/-- A message carrying an id. -/
def msgWithId : Msg := ⟨some "1", "abc"⟩

/-- A message without an id field (for instance the JSON string `"x"`). -/
def msgNoId : Msg := ⟨none, "x"⟩

end WS

namespace WS

/-! ## Theorems -/

/-! ### C1 — unclean close while connected, with reconnect enabled -/

/-- Claim C1 (counterexample): on an unclean close in state `connected` with
reconnect enabled, the code does *not* transition directly from `connected`
to `reconnecting`: it emits two `state-change` events, passing through the
intermediate state `disconnected`. -/
theorem closeHandler_not_direct :
    (closeHandler ConnState.connected false true 5).stateChanges =
      [⟨ConnState.connected, ConnState.disconnected, 5⟩,
       ⟨ConnState.disconnected, ConnState.reconnecting, 5⟩] ∧
    (closeHandler ConnState.connected false true 5).stateChanges ≠
      [⟨ConnState.connected, ConnState.reconnecting, 5⟩] := by
  constructor
  · decide
  · decide

/-- Claim C1 (amended): after an unclean close while in state `connected`
with reconnect enabled, the state passes through `disconnected` on its way
to `reconnecting` — the trace is `connected → disconnected → reconnecting`,
with exactly one `state-change` event per change; and in general `setState`
emits exactly one event when the state changes and none otherwise. -/
theorem closeHandler_trace (now : Nat) (s ns : ConnState) :
    (closeHandler ConnState.connected false true now).finalState =
      ConnState.reconnecting ∧
    (closeHandler ConnState.connected false true now).stateChanges =
      [⟨ConnState.connected, ConnState.disconnected, now⟩,
       ⟨ConnState.disconnected, ConnState.reconnecting, now⟩] ∧
    (setState s ns now).2.length = (if s = ns then 0 else 1) := by
  refine ⟨?_, ?_, ?_⟩
  · simp [closeHandler, setState, isConnected]
  · simp [closeHandler, setState, isConnected]
  · by_cases h : s = ns <;> simp [setState, h]

/-! ### C2 — exponential backoff off by one -/

/-- Claim C2 (the code at the failing input): with
`delay 100, maxDelay 1000, factor 2, jitter 0, maxAttempts 5` and five
consecutive connect failures, the delays the code schedules are
`200, 400, 800, 1000, 1000` — not the `100, 200, 400, 800, 1000` the claim
(and the source's own doc comments) state.  The attempts counter is
incremented *before* `getNextDelay` reads it, so attempt `n` (zero-indexed)
uses `min(maxDelay, delay · factor^(n+1))`. -/
theorem reconnect_delays_off_by_one :
    observedDelays (reconnectTrace scenarioCfg (fun _ => 1/2) 5 0).1 =
      [200, 400, 800, 1000, 1000] ∧
    observedDelays (reconnectTrace scenarioCfg (fun _ => 1/2) 5 0).1 ≠
      [100, 200, 400, 800, 1000] ∧
    getNextDelay scenarioCfg 1 (1/2) = 200 := by
  refine ⟨?_, ?_, ?_⟩ <;>
    norm_num [reconnectTrace, observedDelays, getNextDelay, qmin, qmax,
      isMaxAttemptsReached, scenarioCfg, List.filterMap_cons]

/-! ### C3 — overflow eviction takes the newest, not the oldest -/

/-- Claim C3 (the code at the failing input): with the queue at
`maxSize = 2` holding two low-priority items (id 1 at timestamp 100, id 2 at
timestamp 200), enqueueing a high-priority item evicts id 2 — the *newest*
low-band item, not the oldest; likewise when all items are high priority the
newest high-band item is evicted.  `removeLowPriorityOldest` pops the tail
of the sorted queue, and same-priority items are sorted by ascending
timestamp, so the tail is the newest item of the lowest band. -/
theorem enqueue_evicts_newest_of_lowest_band :
    (enqueue 2 twoLowItems ⟨3, Priority.high, 300⟩).2 =
      some ⟨2, Priority.low, 200⟩ ∧
    (enqueue 2 twoLowItems ⟨3, Priority.high, 300⟩).2 ≠
      some ⟨1, Priority.low, 100⟩ ∧
    (enqueue 2 twoHighItems ⟨3, Priority.high, 300⟩).2 =
      some ⟨2, Priority.high, 200⟩ ∧
    (enqueue 2 twoHighItems ⟨3, Priority.high, 300⟩).2 ≠
      some ⟨1, Priority.high, 100⟩ := by
  refine ⟨?_, ?_, ?_, ?_⟩ <;> decide

/-! ### C4 — `once` removes the wrapper only after the user code runs -/

/-- How one snapshot entry changes the count of `u`-invocations. -/
theorem runListener_calls_count (throws : Nat → Nat → Bool) (st : EmitState)
    (l : RegListener) (u : Nat) :
    (runListener throws st l).calls.count u =
      st.calls.count u +
        (if l = RegListener.plain u ∨ l = RegListener.onceWrapper u then 1
         else 0) := by
  cases l with
  | plain v =>
    by_cases hv : v = u <;>
      simp [runListener, List.count_append, hv, List.count_singleton]
  | onceWrapper v =>
    by_cases hv : v = u
    · subst hv
      by_cases ht : throws v (st.calls.count v) <;>
        simp [runListener, ht, List.count_append]
    · by_cases ht : throws v (st.calls.count v) <;>
        simp [runListener, ht, List.count_append, hv, List.count_cons,
          List.count_nil]

/-- The `u`-invocations added by one emission are exactly the occurrences of
`u`'s listeners in the snapshot. -/
theorem emit_fold_calls_count (throws : Nat → Nat → Bool) (u : Nat) :
    ∀ (snap : List RegListener) (st : EmitState),
      (snap.foldl (runListener throws) st).calls.count u =
        st.calls.count u + snap.count (RegListener.plain u) +
          snap.count (RegListener.onceWrapper u)
  | [], st => by simp
  | l :: rest, st => by
    have ih := emit_fold_calls_count throws u rest (runListener throws st l)
    have hl := runListener_calls_count throws st l u
    simp only [List.foldl_cons, ih, hl, List.count_cons]
    cases l with
    | plain v => by_cases hv : v = u <;> simp [hv] <;> omega
    | onceWrapper v => by_cases hv : v = u <;> simp [hv] <;> omega

/-- Emission never adds listeners: each snapshot entry leaves the count of
any registered listener the same or smaller. -/
theorem runListener_listener_count_le (throws : Nat → Nat → Bool)
    (st : EmitState) (l : RegListener) (x : RegListener) :
    (runListener throws st l).listeners.count x ≤ st.listeners.count x := by
  cases l with
  | plain v => simp [runListener]
  | onceWrapper v =>
    by_cases ht : throws v (st.calls.count v)
    · simp [runListener, ht]
    · simpa [runListener, ht] using
        (List.filter_sublist st.listeners).count_le x

/-- Emission never adds listeners, across a whole snapshot. -/
theorem emit_fold_listener_count_le (throws : Nat → Nat → Bool)
    (x : RegListener) :
    ∀ (snap : List RegListener) (st : EmitState),
      (snap.foldl (runListener throws) st).listeners.count x ≤
        st.listeners.count x
  | [], _ => le_refl _
  | l :: rest, st =>
    le_trans
      (emit_fold_listener_count_le throws x rest (runListener throws st l))
      (runListener_listener_count_le throws st l x)

/-- When the snapshot contains the `once` wrapper of a handler that does not
throw, processing the snapshot removes the wrapper from the listener set. -/
theorem emit_fold_wrapper_removed (throws : Nat → Nat → Bool) (u : Nat)
    (hu : ∀ k, throws u k = false) :
    ∀ (snap : List RegListener) (st : EmitState),
      RegListener.onceWrapper u ∈ snap →
        (snap.foldl (runListener throws) st).listeners.count
          (RegListener.onceWrapper u) = 0
  | [], _, hmem => by simp at hmem
  | l :: rest, st, hmem => by
    by_cases hl : l = RegListener.onceWrapper u
    · subst hl
      have hzero : (runListener throws st (RegListener.onceWrapper u)).listeners.count
          (RegListener.onceWrapper u) = 0 := by
        simp only [runListener, hu]
        rw [List.count_eq_zero]
        intro hmem2
        have := (List.mem_filter.mp hmem2).2
        simp at this
      have hle := emit_fold_listener_count_le throws
        (RegListener.onceWrapper u) rest (runListener throws st (RegListener.onceWrapper u))
      rw [List.foldl_cons]
      omega
    · have hmem2 : RegListener.onceWrapper u ∈ rest := by
        rcases List.mem_cons.mp hmem with h | h
        · exact absurd h.symm hl
        · exact h
      exact emit_fold_wrapper_removed throws u hu rest
        (runListener throws st l) hmem2

/-- One emission preserves the invariant. -/
theorem emitOnce_preserves_onceInv (throws : Nat → Nat → Bool) (u : Nat)
    (hu : ∀ k, throws u k = false) (st : EmitState) (hinv : OnceInv u st) :
    OnceInv u (emitOnce throws st) := by
  obtain ⟨h1, h2⟩ := hinv
  have hcalls := emit_fold_calls_count throws u st.listeners st
  have hple := emit_fold_listener_count_le throws (RegListener.plain u)
    st.listeners st
  have hwle := emit_fold_listener_count_le throws (RegListener.onceWrapper u)
    st.listeners st
  unfold emitOnce
  by_cases hw : st.listeners.count (RegListener.onceWrapper u) = 0
  · constructor
    · omega
    · omega
  · have hmem : RegListener.onceWrapper u ∈ st.listeners := by
      rw [← List.count_pos_iff_mem]
      omega
    have hrem := emit_fold_wrapper_removed throws u hu st.listeners st hmem
    constructor
    · omega
    · omega

/-- Claim C4 (counterexample): a handler registered with `once` whose first
invocation throws is invoked *again* by a second emission — the wrapper
calls the user code before `off`, so the throw prevents its removal.  With
an always-throwing handler, two emissions invoke it twice. -/
theorem once_throwing_handler_runs_twice :
    (emitTimes alwaysThrows ⟨[RegListener.onceWrapper 7], []⟩ 2).calls.count 7
      = 2 ∧
    (emitOnce alwaysThrows ⟨[RegListener.onceWrapper 7], []⟩).listeners =
      [RegListener.onceWrapper 7] ∧
    ¬ (emitTimes alwaysThrows ⟨[RegListener.onceWrapper 7], []⟩ 2).calls.count 7
        ≤ 1 := by
  refine ⟨by decide, by decide, by decide⟩

/-- Claim C4 (amended): the `once` wrapper invokes the user handler first and
removes itself *afterwards*; consequently a handler whose invocations return
normally is invoked at most once across any number of emissions, while a
handler that throws on its first invocation stays registered and can run
again.  (The at-most-once bound is proved here for non-throwing handlers;
the counterexample above shows it fails for throwing ones.) -/
theorem once_nonthrowing_at_most_once (throws : Nat → Nat → Bool) (u : Nat)
    (st : EmitState) (n : Nat)
    (hu : ∀ k, throws u k = false)
    (hc : st.calls.count u = 0)
    (hw : st.listeners.count (RegListener.onceWrapper u) ≤ 1)
    (hp : st.listeners.count (RegListener.plain u) = 0) :
    (emitTimes throws st n).calls.count u ≤ 1 := by
  have hinv : OnceInv u st := ⟨by omega, hp⟩
  clear hc hw hp
  induction n generalizing st with
  | zero =>
    have := hinv.1
    simpa [emitTimes] using by omega
  | succ m ih =>
    have hinv2 := emitOnce_preserves_onceInv throws u hu st hinv
    simpa [emitTimes] using ih (emitOnce throws st) hinv2

/-- Witness for C4's amended theorem: a concrete non-throwing handler
registered with `once`, emitted to three times, is invoked at most once. -/
theorem once_nonthrowing_at_most_once_witness :
    (emitTimes neverThrows ⟨[RegListener.onceWrapper 7], []⟩ 3).calls.count 7
      ≤ 1 :=
  once_nonthrowing_at_most_once neverThrows 7 ⟨[RegListener.onceWrapper 7], []⟩
    3 (fun _ => rfl) (by decide) (by decide) (by decide)

/-! ### C10 — `on` is idempotent per `(event, handler)` pair -/

/-- `Set.add` of a member leaves the set unchanged. -/
theorem addToSet_of_mem {h : Handler} {s : List Handler} (hm : h ∈ s) :
    addToSet h s = s := by
  simp [addToSet, hm]

/-- The added handler is a member afterwards. -/
theorem mem_addToSet (h : Handler) (s : List Handler) : h ∈ addToSet h s := by
  by_cases hm : h ∈ s <;> simp [addToSet, hm]

/-- `Set.add` preserves freedom from duplicates. -/
theorem nodup_addToSet (h : Handler) {s : List Handler} (hs : s.Nodup) :
    (addToSet h s).Nodup := by
  by_cases hm : h ∈ s
  · simpa [addToSet, hm] using hs
  · rw [addToSet, if_neg hm]
    refine List.Nodup.append hs (List.nodup_singleton h) ?_
    intro a ha hb
    rw [List.mem_singleton] at hb
    exact hm (hb ▸ ha)

/-- In a duplicate-free set, the added handler occurs exactly once. -/
theorem count_addToSet (h : Handler) {s : List Handler} (hs : s.Nodup) :
    (addToSet h s).count h = 1 := by
  by_cases hm : h ∈ s
  · rw [addToSet_of_mem hm]
    exact List.count_eq_one_of_mem hs hm
  · simp [addToSet, hm, List.count_append, List.count_eq_zero.mpr hm]

/-- An event absent from the listeners map has no handlers. -/
theorem getListeners_of_not_hasEvent :
    ∀ (st : EmitterListeners) (e : String), hasEvent st e = false →
      getListeners st e = []
  | [], _, _ => rfl
  | (k, s) :: rest, e, hne => by
    have hk : ¬ k = e := by
      intro hk
      simp [hasEvent, hk] at hne
    have hrest : hasEvent rest e = false := by
      simp only [hasEvent, List.any_cons, Bool.or_eq_false_iff] at hne
      exact hne.2
    simpa [getListeners, hk] using
      getListeners_of_not_hasEvent rest e hrest

/-- Looking up an event past a prefix that does not contain it. -/
theorem getListeners_append :
    ∀ (st : EmitterListeners) (e : String) (l : EmitterListeners),
      hasEvent st e = false → getListeners (st ++ l) e = getListeners l e
  | [], _, _, _ => rfl
  | (k, s) :: rest, e, l, hne => by
    have hk : ¬ k = e := by
      intro hk
      simp [hasEvent, hk] at hne
    have hrest : hasEvent rest e = false := by
      simp only [hasEvent, List.any_cons, Bool.or_eq_false_iff] at hne
      exact hne.2
    simpa [getListeners, hk] using getListeners_append rest e l hrest

/-- The in-place update performed by `on` when the event already exists. -/
theorem getListeners_map_update (e : String) (h : Handler) :
    ∀ st : EmitterListeners,
      getListeners
        (st.map fun p => if p.1 = e then (p.1, addToSet h p.2) else p) e =
        (if hasEvent st e then addToSet h (getListeners st e) else [])
  | [] => by simp [getListeners, hasEvent]
  | (k, s) :: rest => by
    have ih := getListeners_map_update e h rest
    by_cases hk : k = e
    · subst hk
      have hhead : (if (k, s).1 = k then ((k, s).1, addToSet h (k, s).2)
          else (k, s)) = (k, addToSet h s) := if_pos rfl
      rw [List.map_cons, hhead]
      simp [getListeners, hasEvent]
    · have hhead : (if (k, s).1 = e then ((k, s).1, addToSet h (k, s).2)
          else (k, s)) = (k, s) := if_neg hk
      rw [List.map_cons, hhead]
      have hcond : hasEvent ((k, s) :: rest) e = hasEvent rest e := by
        simp [hasEvent, eq_false hk]
      simp only [getListeners]
      rw [if_neg hk, ih, hcond, if_neg hk]

/-- What `on` does to the registered handler set of its event. -/
theorem getListeners_onE (st : EmitterListeners) (e : String) (h : Handler) :
    getListeners (onE st e h) e = addToSet h (getListeners st e) := by
  by_cases he : hasEvent st e
  · rw [onE, if_pos he, getListeners_map_update, if_pos he]
  · have he' : hasEvent st e = false := by simpa using he
    rw [onE, if_neg he, getListeners_append st e _ he',
      getListeners_of_not_hasEvent st e he']
    simp [getListeners]

/-- Claim C10: `on` is idempotent per `(event, handler)` pair — handlers are
kept in a `Set`, so a second registration of the same handler for the same
event leaves the handler set unchanged, the handler is invoked exactly once
per `emit` of the event (it occurs once in the emission snapshot), and
`listenerCount` counts it once. -/
theorem on_idempotent (st : EmitterListeners) (e : String) (h : Handler)
    (hnd : (getListeners st e).Nodup) :
    getListeners (onE (onE st e h) e h) e = getListeners (onE st e h) e ∧
    emitInvocations (onE (onE st e h) e h) e h = 1 ∧
    emitInvocations (onE st e h) e h = 1 ∧
    listenerCount (onE (onE st e h) e h) e = listenerCount (onE st e h) e := by
  have h1 := getListeners_onE st e h
  have h2 := getListeners_onE (onE st e h) e h
  have hset : getListeners (onE (onE st e h) e h) e =
      getListeners (onE st e h) e := by
    rw [h2, h1, addToSet_of_mem (mem_addToSet h _)]
  refine ⟨hset, ?_, ?_, ?_⟩
  · rw [emitInvocations, hset, h1]
    exact count_addToSet h hnd
  · rw [emitInvocations, h1]
    exact count_addToSet h hnd
  · rw [listenerCount, listenerCount, hset]

/-! ### C6 — `connect()` during `reconnecting` is an immediate no-op success -/

/-- Claim C6: invoking `connect()` while the state is `reconnecting` returns
successfully and immediately — no adapter `connect()` call, no state change,
no events — because `isConnecting` counts `reconnecting` as connecting; and
the reconnect manager's retry invokes `connect()` in exactly this state
(`handleReconnect` sets `reconnecting` before scheduling the retry), so a
retry attempt completes without a transport being opened. -/
theorem connect_while_reconnecting (c : Client) (adapterOk : Bool) (now : Nat)
    (hd : c.destroyed = false) (hs : c.connState = ConnState.reconnecting) :
    connectModel c adapterOk now = ⟨c, false, [], none⟩ ∧
    isConnecting c.connState = true ∧
    (handleReconnectRetry c adapterOk now).adapterConnectCalled = false ∧
    (handleReconnectRetry c adapterOk now).result = none ∧
    (handleReconnectRetry c adapterOk now).client.connState =
      ConnState.reconnecting := by
  have h1 : connectModel c adapterOk now = ⟨c, false, [], none⟩ := by
    rw [connectModel, if_neg (by simp [hd]), if_pos (by simp [isConnecting, hs])]
  have h2 : handleReconnectRetry c adapterOk now = ⟨c, false, [], none⟩ := by
    rw [handleReconnectRetry, setState, if_pos hs]
    have : { c with connState := c.connState } = c := rfl
    rw [this, h1]
  refine ⟨h1, by simp [isConnecting, hs], by rw [h2], by rw [h2], ?_⟩
  rw [h2, hs]

/-- Witness for C6: a concrete live client in state `reconnecting`. -/
theorem connect_while_reconnecting_witness :
    connectModel reconnectingClient true 0 =
      ⟨reconnectingClient, false, [], none⟩ ∧
    isConnecting reconnectingClient.connState = true ∧
    (handleReconnectRetry reconnectingClient true 0).adapterConnectCalled =
      false ∧
    (handleReconnectRetry reconnectingClient true 0).result = none ∧
    (handleReconnectRetry reconnectingClient true 0).client.connState =
      ConnState.reconnecting :=
  connect_while_reconnecting reconnectingClient true 0 rfl rfl

/-! ### C7 — destroy: idempotent, but not a uniform `StateError` fail-fast -/

/-- Claim C7 (counterexample): after `destroy`, not every public operation
fails with a `StateError`: `clearQueue` completes without any error, and the
error `connect` throws is a plain `Error`, not the `StateError` class. -/
theorem destroy_fail_fast_counterexample :
    (clearQueueStep (destroyStep freshClient)).2 = none ∧
    (connectModel (destroyStep freshClient) true 0).result =
      some (WSError.generic "client destroyed, cannot connect") ∧
    WSError.isState (WSError.generic "client destroyed, cannot connect") =
      false := by
  refine ⟨by decide, by decide, by decide⟩

/-- Claim C7 (amended): `destroy` is idempotent, and afterwards `connect`,
`send` and `sendBinary` fail fast — though with plain `Error`s, not the
`StateError` class — while `disconnect` and `clearQueue` return without
error, and no heartbeat or reconnect timer remains armed. -/
theorem destroy_idempotent_fail_fast (c : Client) (adapterOk : Bool)
    (payload : Nat) (now : Nat) (hlive : c.destroyed = false) :
    destroyStep (destroyStep c) = destroyStep c ∧
    (destroyStep c).destroyed = true ∧
    (connectModel (destroyStep c) adapterOk now).result =
      some (WSError.generic "client destroyed, cannot connect") ∧
    (sendStep (destroyStep c) payload adapterOk).2 =
      some (WSError.generic "client destroyed, cannot send") ∧
    sendBinaryStep (destroyStep c) =
      some (WSError.generic "client destroyed, cannot send binary") ∧
    (clearQueueStep (destroyStep c)).2 = none ∧
    disconnectStep (destroyStep c) = destroyStep c ∧
    (destroyStep c).heartbeatTimerArmed = false ∧
    (destroyStep c).reconnectTimerArmed = false := by
  have hd : (destroyStep c).destroyed = true := by
    simp [destroyStep, disconnectStep, hlive]
  refine ⟨?_, hd, ?_, ?_, ?_, rfl, ?_, ?_, ?_⟩
  · rw [destroyStep, if_pos hd]
  · rw [connectModel, if_pos hd]
  · rw [sendStep, if_pos hd]
  · rw [sendBinaryStep, if_pos hd]
  · rw [disconnectStep, if_pos hd]
  · simp [destroyStep, disconnectStep, hlive]
  · simp [destroyStep, disconnectStep, hlive]

/-- Witness for C7's amended theorem: a concrete live client. -/
theorem destroy_idempotent_fail_fast_witness :
    destroyStep (destroyStep freshClient) = destroyStep freshClient ∧
    (destroyStep freshClient).destroyed = true ∧
    (connectModel (destroyStep freshClient) true 0).result =
      some (WSError.generic "client destroyed, cannot connect") ∧
    (sendStep (destroyStep freshClient) 9 true).2 =
      some (WSError.generic "client destroyed, cannot send") ∧
    sendBinaryStep (destroyStep freshClient) =
      some (WSError.generic "client destroyed, cannot send binary") ∧
    (clearQueueStep (destroyStep freshClient)).2 = none ∧
    disconnectStep (destroyStep freshClient) = destroyStep freshClient ∧
    (destroyStep freshClient).heartbeatTimerArmed = false ∧
    (destroyStep freshClient).reconnectTimerArmed = false :=
  destroy_idempotent_fail_fast freshClient true 9 0 rfl

/-! ### C8 — `maxAttempts = 0` means unbounded reconnection -/

/-- Claim C8: with `maxAttempts = 0` and reconnect enabled, any number of
consecutive connect failures produces no `onFailed` (`reconnect-failed`)
report, and `isMaxAttemptsReached` never holds. -/
theorem unbounded_reconnect_never_fails (cfg : ReconnectConfig)
    (rand : Nat → ℚ) (failures attempts : Nat)
    (h0 : cfg.maxAttempts = 0) (he : cfg.enabled = true) :
    noFailedEvent (reconnectTrace cfg rand failures attempts).1 = true ∧
    isMaxAttemptsReached cfg attempts = false := by
  have hmax : ∀ a : Nat, isMaxAttemptsReached cfg a = false := by
    intro a
    simp [isMaxAttemptsReached, h0]
  refine ⟨?_, hmax attempts⟩
  induction failures generalizing attempts with
  | zero =>
    rw [reconnectTrace]
    simp [he, hmax, noFailedEvent, REvent.isFailed]
  | succ n ih =>
    rw [reconnectTrace]
    simp only [he, hmax, Bool.not_true, Bool.false_eq_true, if_false,
      Bool.not_false, if_true]
    simpa [noFailedEvent, REvent.isFailed] using ih (attempts + 1)

/-- Witness for C8: three consecutive failures under `maxAttempts = 0`
report no failure. -/
theorem unbounded_reconnect_never_fails_witness :
    noFailedEvent (reconnectTrace unboundedCfg halfRand 3 0).1 = true ∧
    isMaxAttemptsReached unboundedCfg 0 = false :=
  unbounded_reconnect_never_fails unboundedCfg halfRand 3 0 rfl rfl

/-- Witness for C10: a concrete emitter with one registered `message`
handler; registering handler 7 twice leaves a single registration. -/
theorem on_idempotent_witness :
    getListeners (onE (onE [("message", [3])] "message" 7) "message" 7)
        "message" =
      getListeners (onE [("message", [3])] "message" 7) "message" ∧
    emitInvocations (onE (onE [("message", [3])] "message" 7) "message" 7)
        "message" 7 = 1 ∧
    emitInvocations (onE [("message", [3])] "message" 7) "message" 7 = 1 ∧
    listenerCount (onE (onE [("message", [3])] "message" 7) "message" 7)
        "message" =
      listenerCount (onE [("message", [3])] "message" 7) "message" :=
  on_idempotent [("message", [3])] "message" 7 (by decide)

/-! ### C9 — markProcessed / isDuplicate round trip and window eviction -/

/-- `Map.set` records its key. -/
theorem recordsHas_mapSet_self (recs : DedupRecords) (k : String) (t : Nat) :
    recordsHas (mapSet recs k t) k = true := by
  by_cases hm : recordsHas recs k
  · rw [mapSet, if_pos hm]
    rw [recordsHas, List.any_eq_true] at hm ⊢
    obtain ⟨e, hmem, hk⟩ := hm
    refine ⟨(k, t), List.mem_map.mpr ⟨e, hmem, ?_⟩, by simp⟩
    rw [if_pos (by simpa using hk)]
  · rw [mapSet, if_neg hm]
    rw [recordsHas, List.any_eq_true]
    exact ⟨(k, t), by simp⟩

/-- `Map.set` keeps every key that was already recorded. -/
theorem recordsHas_mapSet_mono (recs : DedupRecords) (k k' : String) (t : Nat)
    (hk' : recordsHas recs k' = true) :
    recordsHas (mapSet recs k t) k' = true := by
  rw [recordsHas, List.any_eq_true] at hk'
  obtain ⟨e, hmem, he⟩ := hk'
  have he' : e.1 = k' := by simpa using he
  by_cases hm : recordsHas recs k
  · rw [mapSet, if_pos hm, recordsHas, List.any_eq_true]
    by_cases hek : e.1 = k
    · refine ⟨(k, t), List.mem_map.mpr ⟨e, hmem, by rw [if_pos hek]⟩, ?_⟩
      simp [← hek, he']
    · exact ⟨e, List.mem_map.mpr ⟨e, hmem, by rw [if_neg hek]⟩, he⟩
  · rw [mapSet, if_neg hm, recordsHas, List.any_eq_true]
    exact ⟨e, List.mem_append_left _ hmem, he⟩

/-- `Map.set` grows the map by at most one entry. -/
theorem mapSet_length_le (recs : DedupRecords) (k : String) (t : Nat) :
    (mapSet recs k t).length ≤ recs.length + 1 := by
  by_cases hm : recordsHas recs k
  · rw [mapSet, if_pos hm]
    simp
  · rw [mapSet, if_neg hm]
    simp

/-- Entries of `Map.set` come from the original map or are the new entry. -/
theorem mem_mapSet (recs : DedupRecords) (k : String) (t : Nat)
    (e : String × Nat) (hmem : e ∈ mapSet recs k t) :
    e ∈ recs ∨ e = (k, t) := by
  by_cases hm : recordsHas recs k
  · rw [mapSet, if_pos hm] at hmem
    obtain ⟨e0, he0, heq⟩ := List.mem_map.mp hmem
    by_cases hek : e0.1 = k
    · rw [if_pos hek] at heq
      exact Or.inr heq.symm
    · rw [if_neg hek] at heq
      exact Or.inl (heq ▸ he0)
  · rw [mapSet, if_neg hm] at hmem
    rcases List.mem_append.mp hmem with h | h
    · exact Or.inl h
    · exact Or.inr (by simpa using h)

/-- `removeOldest` only removes entries. -/
theorem mem_removeOldest (recs : DedupRecords) (e : String × Nat)
    (hmem : e ∈ removeOldest recs) : e ∈ recs := by
  rw [removeOldest] at hmem
  cases h : (oldestEntry recs).1 with
  | none => rw [h] at hmem; exact hmem
  | some k => rw [h] at hmem; exact (List.eraseP_sublist _).mem hmem

/-- The fold inside `markProcessed`: under spare capacity it records every
key of the list and keeps every previously recorded key. -/
theorem markProcessed_fold_has (t maxSize : Nat) :
    ∀ (keys : List String) (rs : DedupRecords),
      rs.length + keys.length ≤ maxSize →
      (∀ k', recordsHas rs k' = true →
        recordsHas (keys.foldl
          (fun rs k => mapSet
            (if maxSize ≤ rs.length then removeOldest rs else rs) k t) rs)
          k' = true) ∧
      (∀ k ∈ keys,
        recordsHas (keys.foldl
          (fun rs k => mapSet
            (if maxSize ≤ rs.length then removeOldest rs else rs) k t) rs)
          k = true)
  | [], rs, _ => by
    refine ⟨fun k' hk' => hk', ?_⟩
    intro k hk
    simp at hk
  | k0 :: ks, rs, hcap => by
    have hlt : ¬ maxSize ≤ rs.length := by
      simp only [List.length_cons] at hcap
      omega
    have hstep : (if maxSize ≤ rs.length then removeOldest rs else rs) = rs :=
      if_neg hlt
    have hcap2 : (mapSet rs k0 t).length + ks.length ≤ maxSize := by
      have := mapSet_length_le rs k0 t
      simp only [List.length_cons] at hcap
      omega
    have ih := markProcessed_fold_has t maxSize ks (mapSet rs k0 t) hcap2
    constructor
    · intro k' hk'
      rw [List.foldl_cons, hstep]
      exact ih.1 k' (recordsHas_mapSet_mono rs k0 k' t hk')
    · intro k hk
      rw [List.foldl_cons, hstep]
      rcases List.mem_cons.mp hk with h | h
      · subst h
        exact ih.1 k (recordsHas_mapSet_self rs k t)
      · exact ih.2 k h

/-- Every entry produced by `markProcessed` either survives from the
original map or carries the insertion timestamp. -/
theorem mem_markProcessed (cfg : DedupConfig) (recs : DedupRecords) (m : Msg)
    (t : Nat) (e : String × Nat) (hmem : e ∈ markProcessed cfg recs m t) :
    e ∈ recs ∨ e.2 = t := by
  rw [markProcessed] at hmem
  by_cases hen : cfg.enabled
  · rw [if_neg (by simpa using hen)] at hmem
    revert hmem
    generalize extractKeys cfg m = keys
    induction keys generalizing recs with
    | nil => exact fun hmem => Or.inl hmem
    | cons k0 ks ih =>
      intro hmem
      rw [List.foldl_cons] at hmem
      rcases ih (mapSet (if cfg.maxSize ≤ recs.length then removeOldest recs
          else recs) k0 t) hmem with h | h
      · rcases mem_mapSet _ k0 t e h with h2 | h2
        · by_cases hev : cfg.maxSize ≤ recs.length
          · rw [if_pos hev] at h2
            exact Or.inl (mem_removeOldest recs e h2)
          · rw [if_neg hev] at h2
            exact Or.inl h2
        · exact Or.inr (by rw [h2])
      · exact Or.inr h
  · rw [if_pos (by simpa using hen)] at hmem
    exact Or.inl hmem

/-- Claim C9 (counterexample): under the `id` strategy, a message that does
not carry an id derives no keys at all, so `markProcessed` records nothing
and the subsequent `isDuplicate` check returns `false`, not `true`. -/
theorem dedup_id_strategy_counterexample :
    isDuplicate idDedupCfg (markProcessed idDedupCfg [] msgNoId 0) msgNoId =
      false ∧
    markProcessed idDedupCfg [] msgNoId 0 = [] := by
  refine ⟨by decide, by decide⟩

/-- Claim C9 (amended): for every message with at least one derived key —
always the case under the default `both` (or `content`) strategy, and under
`id` exactly when the message carries an id — `markProcessed` followed by
`isDuplicate`, with no intervening capacity eviction, returns `true`; and
once a sweep runs more than `windowSize` after the insertion with no repeat
of the keys, the record is evicted and `isDuplicate` returns `false`. -/
theorem markProcessed_isDuplicate (cfg : DedupConfig) (recs : DedupRecords)
    (m : Msg) (t now : Nat)
    (hen : cfg.enabled = true)
    (hkeys : extractKeys cfg m ≠ [])
    (hcap : recs.length + (extractKeys cfg m).length ≤ cfg.maxSize)
    (hfresh : ∀ e ∈ recs, e.1 ∉ extractKeys cfg m) :
    isDuplicate cfg (markProcessed cfg recs m t) m = true ∧
    (cfg.windowSize < now - t →
      isDuplicate cfg
        (cleanup (markProcessed cfg recs m t) now cfg.windowSize) m =
        false) := by
  constructor
  · rw [isDuplicate, hen, Bool.true_and, List.any_eq_true]
    obtain ⟨k0, ks, hk⟩ : ∃ k0 ks, extractKeys cfg m = k0 :: ks := by
      cases h : extractKeys cfg m with
      | nil => exact absurd h hkeys
      | cons a b => exact ⟨a, b, rfl⟩
    refine ⟨k0, by rw [hk]; exact List.mem_cons_self _ _, ?_⟩
    rw [markProcessed, if_neg (by simp [hen])]
    have := (markProcessed_fold_has t cfg.maxSize (extractKeys cfg m) recs
      hcap).2 k0 (by rw [hk]; exact List.mem_cons_self _ _)
    exact this
  · intro hwin
    rw [isDuplicate, hen, Bool.true_and]
    rw [List.any_eq_false]
    intro k hk
    rw [Bool.not_eq_true, recordsHas, List.any_eq_false]
    intro e hmem
    have h1 := List.mem_filter.mp hmem
    have h2 : now - e.2 ≤ cfg.windowSize := by simpa using h1.2
    intro hdec
    rcases mem_markProcessed cfg recs m t e h1.1 with h3 | h3
    · have hek : e.1 = k := of_decide_eq_true hdec
      exact hfresh e h3 (hek ▸ hk)
    · omega

/-- Witness for C9's amended theorem: the default configuration, a message
carrying an id, insertion at time 0 and a sweep at time 70000 (window
60000). -/
theorem markProcessed_isDuplicate_witness :
    isDuplicate defaultDedupCfg
      (markProcessed defaultDedupCfg [] msgWithId 0) msgWithId = true ∧
    isDuplicate defaultDedupCfg
      (cleanup (markProcessed defaultDedupCfg [] msgWithId 0) 70000 60000)
      msgWithId = false := by
  have h := markProcessed_isDuplicate defaultDedupCfg [] msgWithId 0 70000
    rfl (by decide) (by decide) (by intro e he ; simp at he)
  exact ⟨h.1, h.2 (by decide)⟩

/-! ### C5 — dequeue order: priority bands first, FIFO within a band -/

/-- The comparator's preorder, characterised: `a` may precede `b` iff `a`'s
band is strictly heavier, or the bands tie and `a` is not newer. -/
theorem queueLE_iff (a b : QueueItem) :
    queueLE a b ↔
      (PRIORITY_WEIGHTS b.priority < PRIORITY_WEIGHTS a.priority ∨
        (PRIORITY_WEIGHTS a.priority = PRIORITY_WEIGHTS b.priority ∧
          a.timestamp ≤ b.timestamp)) := by
  simp only [queueLE, queueCmp]
  split_ifs with h
  · omega
  · omega

instance : IsTotal QueueItem queueLE :=
  ⟨fun a b => by simp only [queueLE_iff]; omega⟩

instance : IsTrans QueueItem queueLE :=
  ⟨fun a b c hab hbc => by
    rw [queueLE_iff] at hab hbc ⊢
    omega⟩

/-- The sorted queue is sorted for the comparator's preorder. -/
theorem sorted_sortByPriority (l : List QueueItem) :
    (sortByPriority l).Sorted queueLE :=
  List.sorted_insertionSort queueLE l

/-- Draining an already sorted queue returns it unchanged. -/
theorem dequeueSeq_of_sorted :
    ∀ (s : List QueueItem), s.Sorted queueLE → dequeueSeq s.length s = s
  | [], _ => rfl
  | x :: rest, h => by
    have hs : sortByPriority (x :: rest) = x :: rest := h.insertionSort_eq
    simp only [List.length_cons, dequeueSeq, dequeue, hs]
    rw [dequeueSeq_of_sorted rest h.of_cons]

/-- Draining the queue yields exactly the comparator-sorted permutation. -/
theorem dequeueSeq_eq_sortByPriority (l : List QueueItem) :
    dequeueSeq l.length l = sortByPriority l := by
  have h1 : (sortByPriority l).Sorted queueLE := sorted_sortByPriority l
  have hlen : (sortByPriority l).length = l.length :=
    List.length_insertionSort queueLE l
  cases hq : sortByPriority l with
  | nil =>
    have h0 : l.length = 0 := by rw [← hlen, hq]; rfl
    rw [h0]
    rfl
  | cons x rest =>
    have h0 : l.length = rest.length + 1 := by rw [← hlen, hq]; rfl
    rw [h0]
    simp only [dequeueSeq, dequeue, hq]
    rw [hq] at h1
    rw [dequeueSeq_of_sorted rest h1.of_cons]

/-- Claim C5: repeated `dequeue` drains the queue in comparator order; in
that order an item of a strictly heavier band always comes before any item
of a lighter band, regardless of insertion order; and within one band the
dequeue order is the enqueue order (timestamps recorded by `enqueue` are
non-decreasing along the queue, which is the `hts` hypothesis).  In
particular `dequeue` returns the oldest item of the heaviest band present. -/
theorem dequeue_priority_order (l : List QueueItem)
    (hts : l.Pairwise fun a b => a.timestamp ≤ b.timestamp) :
    dequeueSeq l.length l = sortByPriority l ∧
    (∀ i j : Fin (sortByPriority l).length,
      PRIORITY_WEIGHTS ((sortByPriority l).get j).priority <
        PRIORITY_WEIGHTS ((sortByPriority l).get i).priority →
      (i : Nat) < (j : Nat)) ∧
    (∀ p : Priority, bandFilter p (sortByPriority l) = bandFilter p l) := by
  refine ⟨dequeueSeq_eq_sortByPriority l, ?_, ?_⟩
  · intro i j hw
    by_contra hij
    rcases Nat.lt_or_ge (j : Nat) (i : Nat) with hlt | hge
    · have hrel := (sorted_sortByPriority l).rel_get_of_lt
        (show j < i from hlt)
      rw [queueLE_iff] at hrel
      omega
    · have : (i : Nat) = (j : Nat) := by omega
      have : i = j := Fin.ext this
      subst this
      omega
  · intro p
    simp only [bandFilter]
    have hpw : (l.filter fun x => decide (x.priority = p)).Pairwise queueLE := by
      have h1 : (l.filter fun x => decide (x.priority = p)).Pairwise
          (fun a b => a.timestamp ≤ b.timestamp) := hts.filter _
      refine h1.imp_of_mem ?_
      intro a b ha hb hab
      have hpa : a.priority = p := by
        have h2 := (List.mem_filter.mp ha).2
        simpa using h2
      have hpb : b.priority = p := by
        have h2 := (List.mem_filter.mp hb).2
        simpa using h2
      rw [queueLE_iff, hpa, hpb]
      omega
    have hsub : List.Sublist (l.filter fun x => decide (x.priority = p)) l :=
      List.filter_sublist l
    have hsub2 : List.Sublist (l.filter fun x => decide (x.priority = p))
        (sortByPriority l) :=
      List.sublist_insertionSort hpw hsub
    have hself : ((l.filter fun x => decide (x.priority = p)).filter
          fun x => decide (x.priority = p)) =
        l.filter fun x => decide (x.priority = p) := by
      rw [List.filter_eq_self]
      intro a ha
      exact (List.mem_filter.mp ha).2
    have hsub3 : List.Sublist (l.filter fun x => decide (x.priority = p))
        ((sortByPriority l).filter fun x => decide (x.priority = p)) := by
      have h2 := hsub2.filter fun x => decide (x.priority = p)
      rwa [hself] at h2
    have hperm : List.Perm (sortByPriority l) l :=
      List.perm_insertionSort queueLE l
    have hlen : ((sortByPriority l).filter
          fun x => decide (x.priority = p)).length =
        (l.filter fun x => decide (x.priority = p)).length :=
      (hperm.filter _).length_eq
    exact (hsub3.eq_of_length hlen.symm).symm

/-- Witness for C5: a concrete three-item queue with increasing timestamps;
draining it returns both high-priority items (in enqueue order) before the
low-priority one. -/
theorem dequeue_priority_order_witness :
    dequeueSeq 3 mixedQueue = sortByPriority mixedQueue ∧
    bandFilter Priority.high (sortByPriority mixedQueue) =
      bandFilter Priority.high mixedQueue ∧
    bandFilter Priority.low (sortByPriority mixedQueue) =
      bandFilter Priority.low mixedQueue := by
  have h := dequeue_priority_order mixedQueue (by decide)
  exact ⟨h.1, h.2.2 Priority.high, h.2.2 Priority.low⟩

end WS
